import Mathlib

/-!
Verification development for the QR symbol construction and rendering
pipeline (`backend/qr_generator.py`): capacity/version selection, function
pattern stamping, byte-mode bit stream encoding, zigzag data placement,
checkerboard masking, and the raster/vector renderers.

Machine integers are modelled as `Nat` (all quantities are nonnegative and
no overflow occurs); the mutable `modules` list-of-lists grid is modelled
as `List (List Bool)` with functional updates; raising an exception is
modelled with `Except`.
-/

namespace QR

/-- Error correction levels, `ErrorCorrectionLevel` in the source. -/
inductive ECLevel where
  | L | M | Q | H
deriving DecidableEq, Repr

/-- Per-version data capacity table, `self.version_info[...]["data_capacity"]`.
Versions outside 1..5 are never looked up by the source (the loop only
visits 1..5); the catch-all 0 is unreachable. -/
def dataCapacity (version : Nat) (l : ECLevel) : Nat :=
  match version, l with
  | 1, .L => 152 | 1, .M => 128 | 1, .Q => 104 | 1, .H => 72
  | 2, .L => 272 | 2, .M => 224 | 2, .Q => 176 | 2, .H => 128
  | 3, .L => 440 | 3, .M => 352 | 3, .Q => 272 | 3, .H => 208
  | 4, .L => 640 | 4, .M => 512 | 4, .Q => 384 | 4, .H => 288
  | 5, .L => 864 | 5, .M => 688 | 5, .Q => 496 | 5, .H => 368
  | _, _ => 0

/-- Symbol side length table, `self.version_info[...]["size"]`. -/
def tableSize (version : Nat) : Nat :=
  match version with
  | 1 => 21 | 2 => 25 | 3 => 29 | 4 => 33 | 5 => 37
  | _ => 0

/-- Loop body of `_optimize_version`: try versions in order, first one whose
capacity holds the data wins; fall through to version 5. -/
def optimizeVersionAux (n : Nat) (l : ECLevel) : List Nat → Nat
  | [] => 5
  | v :: rest => if n ≤ dataCapacity v l then v else optimizeVersionAux n l rest

/-- The `_optimize_version` method: `n` is the payload's UTF-8 byte length. -/
def optimizeVersion (n : Nat) (l : ECLevel) : Nat :=
  optimizeVersionAux n l [1, 2, 3, 4, 5]

/-- The module grid `self.modules`: a list of rows of booleans
(Python stores a mix of bools and 0/1 ints; only truthiness is ever
observed, so cells are modelled as `Bool`). -/
abbrev Grid : Type := List (List Bool)

/-- Read `self.modules[r][c]`; out-of-range reads default to `false`
(every source read is guarded in range). -/
def getCell (g : Grid) (r c : Nat) : Bool :=
  ((List.getD g r []).getD c false)

/-- Write `self.modules[r][c] = b`; out-of-range writes are dropped
(every source write is guarded in range). -/
def setCell (g : Grid) (r c : Nat) (b : Bool) : Grid :=
  List.set g r ((List.getD g r []).set c b)

/-- Fresh all-Light grid allocation from `make`. -/
def allocGrid (size : Nat) : Grid :=
  List.replicate size (List.replicate size false)

/-- Corner anchors used by `_place_finder_patterns` and `_place_separators`. -/
def finderPositions (size : Nat) : List (Nat × Nat) :=
  [(0, 0), (size - 7, 0), (0, size - 7)]

/-- The `_place_finder_patterns` method: ring-in-ring 7x7 stamps at the
three corner anchors, with the source's bounds guard. -/
def placeFinderPatterns (size : Nat) (g : Grid) : Grid :=
  (finderPositions size).foldl (fun g1 pos =>
    (List.range 7).foldl (fun g2 r =>
      (List.range 7).foldl (fun g3 c =>
        if ((r = 0 ∨ r = 6) ∧ c ≤ 6) ∨ ((c = 0 ∨ c = 6) ∧ r ≤ 6) ∨
           (2 ≤ r ∧ r ≤ 4 ∧ 2 ≤ c ∧ c ≤ 4) then
          if pos.1 + r < size ∧ pos.2 + c < size then
            setCell g3 (pos.1 + r) (pos.2 + c) true
          else g3
        else g3) g2) g1) g

/-- The `_place_separators` method: force Light on the 8th row/column of
each finder neighborhood, in bounds. -/
def placeSeparators (size : Nat) (g : Grid) : Grid :=
  (finderPositions size).foldl (fun g1 pos =>
    (List.range 8).foldl (fun g2 r =>
      (List.range 8).foldl (fun g3 c =>
        if pos.1 + r < size ∧ pos.2 + c < size then
          if r = 7 ∨ c = 7 then setCell g3 (pos.1 + r) (pos.2 + c) false else g3
        else g3) g2) g1) g

/-- The `_place_timing_patterns` method: alternating modules on row 6 and
column 6 for indices in `range(8, size - 8)`. -/
def placeTimingPatterns (size : Nat) (g : Grid) : Grid :=
  (List.range (size - 8 - 8)).foldl (fun g1 k =>
    let i := 8 + k
    setCell (setCell g1 6 i (decide (i % 2 = 0))) i 6 (decide (i % 2 = 0))) g

/-- The `_place_dark_module` method (note: source gates on the module
count being above 21, not on the version directly). -/
def placeDarkModule (version size : Nat) (g : Grid) : Grid :=
  if size > 21 then setCell g (4 * version + 9) 8 true else g

/-- Two-bit level codes from `_generate_format_info`. -/
def errorLevelBits : ECLevel → Nat
  | .L => 1 | .M => 0 | .Q => 3 | .H => 2

/-- The `_generate_format_info` method: level code shifted past the
hard-coded mask id 0. -/
def generateFormatInfo (l : ECLevel) : Nat :=
  (errorLevelBits l) <<< 3 ||| 0

/-- The `_place_format_info` method, with the source's guards transcribed;
integer comparisons like `size - 1 - i >= 0` become `size ≥ 1 + i` so
that the `Nat` subtractions coincide with the source's integer values. -/
def placeFormatInfo (l : ECLevel) (size : Nat) (g : Grid) : Grid :=
  let fi := generateFormatInfo l
  (List.range 15).foldl (fun g1 i =>
    let bit : Bool := decide ((fi >>> i) &&& 1 = 1)
    if i < 6 then
      let g2 := if 8 < size ∧ i < size then setCell g1 8 i bit else g1
      if size ≥ 1 + i ∧ 8 < size then setCell g2 (size - 1 - i) 8 bit else g2
    else if i < 8 then
      let g2 := if 8 < size ∧ i + 1 < size then setCell g1 8 (i + 1) bit else g1
      if size + i ≥ 7 ∧ size - 7 + i < size ∧ 8 < size then
        setCell g2 (size - 7 + i) 8 bit
      else g2
    else if i < 9 then
      let g2 := if 7 < size ∧ 8 < size then setCell g1 7 8 bit else g1
      if 8 < size ∧ size ≥ 8 then setCell g2 8 (size - 8) bit else g2
    else
      let g2 := if 14 ≥ i ∧ 8 < size then setCell g1 (14 - i) 8 bit else g1
      if 8 < size ∧ size + i ≥ 15 ∧ size - 15 + i < size then
        setCell g2 8 (size - 15 + i) bit
      else g2) g

/-- Function-pattern stamping stages of `make`, in source order. -/
def stampPatterns (version : Nat) (l : ECLevel) (size : Nat) (g : Grid) : Grid :=
  placeFormatInfo l size
    (placeDarkModule version size
      (placeTimingPatterns size
        (placeSeparators size
          (placeFinderPatterns size g))))

/-- Bits of `n`, most significant first, appended by the source loops
`for i in range(7, -1, -1): encoded.append((n >> i) & 1)`. -/
def bits8Desc (n : Nat) : List Nat :=
  (List.range 8).reverse.map (fun i => (n >>> i) &&& 1)

/-- The `_encode_data` method: mode indicator `0100`, 8 count bits, then
8 bits per payload byte, accumulated by list appends. -/
def encodeData (data : List Nat) : List Nat :=
  data.foldl (fun acc byte => acc ++ bits8Desc byte)
    (([0, 1, 0, 0] ++ bits8Desc data.length))

/-- The `_add_error_correction` method: returns its input unchanged. -/
def addErrorCorrection (data : List Nat) : List Nat := data

/-- The `_is_function_module` method. -/
def isFunctionModule (version size : Nat) (row col : Nat) : Bool :=
  if (row < 9 ∧ col < 9) ∨ (row < 9 ∧ col ≥ size - 8) ∨
     (row ≥ size - 8 ∧ col < 9) then true
  else if row = 6 ∨ col = 6 then true
  else if 1 < version ∧ row = 4 * version + 9 ∧ col = 8 then true
  else false

/-- Running state of `_place_data`: the grid and `bit_index`. -/
structure PDState where
  grid : Grid
  bi : Nat

/-- One cell visit inside `_place_data`: write the next bit when the cell
is not a function module and bits remain (the stream holds 0/1 ints whose
truthiness is stored). -/
def placeCell (version size : Nat) (data : List Nat) (row col : Nat)
    (st : PDState) : PDState :=
  if isFunctionModule version size row col = false then
    if st.bi < data.length then
      { grid := setCell st.grid row col (decide (data.getD st.bi 0 ≠ 0)),
        bi := st.bi + 1 }
    else st
  else st

/-- Rows visited during one paired-column sweep of `_place_data`, together
with the direction left for the next sweep: each iteration computes the
row from the current direction (`-1`: `size - 1 - (j % size)`, else
`j % size`) and then flips the direction. -/
def sweepRows (size : Nat) (d : Int) : List Nat × Int :=
  (List.range size).foldl
    (fun acc j =>
      (acc.1 ++ [if acc.2 = -1 then size - 1 - (j % size) else j % size], -acc.2))
    ([], d)

/-- Base columns visited by `_place_data`: `range(size - 1, 0, -2)` with
the timing column 6 shifted to 5. -/
def colList (size : Nat) : List Nat :=
  ((List.range (size / 2)).map (fun i => size - 1 - 2 * i)).map
    (fun c => if c = 6 then 5 else c)

/-- The `_place_data` method: sweep the column pairs right to left; within
a sweep visit the computed row at `col` then `col - 1`; thread the
direction across sweeps. -/
def placeData (version size : Nat) (data : List Nat) (g : Grid) : Grid :=
  (((colList size).foldl
    (fun (acc : PDState × Int) col =>
      let rows := sweepRows size acc.2
      (rows.1.foldl
        (fun st row =>
          placeCell version size data row (col - 1)
            (placeCell version size data row col st)) acc.1,
       rows.2))
    (⟨g, 0⟩, -1)).1).grid

/-- Per-sweep row traces of `_place_data`'s traversal, in sweep order. -/
def rowTrace (size : Nat) : List (List Nat) :=
  ((colList size).foldl
    (fun (acc : List (List Nat) × Int) _ =>
      let rows := sweepRows size acc.2
      (acc.1 ++ [rows.1], rows.2))
    ([], -1)).1

/-- Body of `_apply_mask`'s inner loop: toggle one non-function module
whose coordinate sum is even. -/
def maskCellStep (version size row : Nat) (g : Grid) (col : Nat) : Grid :=
  if isFunctionModule version size row col = false then
    if (row + col) % 2 = 0 then setCell g row col (!(getCell g row col))
    else g
  else g

/-- Body of `_apply_mask`'s outer loop: sweep the columns of one row. -/
def maskRowStep (version size : Nat) (g : Grid) (row : Nat) : Grid :=
  (List.range size).foldl (maskCellStep version size row) g

/-- The `_apply_mask` method: toggle every non-function module whose
coordinate sum is even. -/
def applyMask (version size : Nat) (g : Grid) : Grid :=
  (List.range size).foldl (maskRowStep version size) g

/-- Result of a successful `make`: the fields of the generator object that
the build writes. -/
structure QRResult where
  version : Nat
  moduleCount : Nat
  modules : Grid

/-- The `make` method: fail on an empty payload, otherwise select the
version, allocate the grid, stamp the function patterns, encode, (not)
error-correct, place and mask.  The payload is its UTF-8 byte list. -/
def makeQR (data : List Nat) (l : ECLevel) : Except String QRResult :=
  if data = [] then .error "No data to encode"
  else
    let version := optimizeVersion data.length l
    let size := tableSize version
    let g1 := stampPatterns version l size (allocGrid size)
    let encoded := encodeData data
    let ecc := addErrorCorrection encoded
    .ok ⟨version, size, applyMask version size (placeData version size ecc g1)⟩

/-- The `is_dark` method: bounds-checked read, `False` out of range. -/
def isDark (size : Nat) (g : Grid) (row col : Int) : Bool :=
  if 0 ≤ row ∧ row < (size : Int) ∧ 0 ≤ col ∧ col < (size : Int) then
    getCell g row.toNat col.toNat
  else false

/-- Finder-footprint test of `create_qr_image` (7x7 corners, used only for
shape selection). -/
def isFinderRaster (size row col : Nat) : Bool :=
  (decide (row < 7) && decide (col < 7)) ||
  (decide (row < 7) && decide (col ≥ size - 7)) ||
  (decide (row ≥ size - 7) && decide (col < 7))

/-- Finder-footprint test of `create_qr_svg`. -/
def isFinderSvg (size row col : Nat) : Bool :=
  (decide (row < 7) && decide (col < 7)) ||
  (decide (row < 7) && decide (col ≥ size - 7)) ||
  (decide (row ≥ size - 7) && decide (col < 7))

/-- Color sanitation of `create_qr_image`: an unparseable color falls back
to black silently.  The external color parser (`ImageColor.getrgb`
succeeding or raising) is abstracted as a boolean oracle `parses`. -/
def sanitizeColorRaster (parses : String → Bool) (color : String) : String :=
  if parses color then color else "#000000"

/-- Color sanitation of `create_qr_svg`. -/
def sanitizeColorSvg (parses : String → Bool) (color : String) : String :=
  if parses color then color else "#000000"

/-- Drawing primitives emitted by `create_qr_image`, as
`(row, col, shape, color)` in emission order: one primitive per dark
module, finder footprints drawn with the marker shape. -/
def rasterDraws (size : Nat) (g : Grid) (parses : String → Bool)
    (color markerShape dotShape : String) : List (Nat × Nat × String × String) :=
  let usedColor := sanitizeColorRaster parses color
  (List.range size).foldl (fun acc (row : Nat) =>
    (List.range size).foldl (fun acc2 (col : Nat) =>
      if isDark size g (row : Int) (col : Int) then
        acc2 ++ [(row, col,
          (if isFinderRaster size row col then markerShape else dotShape),
          usedColor)]
      else acc2) acc) []

/-- Drawing primitives emitted by `create_qr_svg`, same format. -/
def svgDraws (size : Nat) (g : Grid) (parses : String → Bool)
    (color markerShape dotShape : String) : List (Nat × Nat × String × String) :=
  let usedColor := sanitizeColorSvg parses color
  (List.range size).foldl (fun acc (row : Nat) =>
    (List.range size).foldl (fun acc2 (col : Nat) =>
      if isDark size g (row : Int) (col : Int) then
        acc2 ++ [(row, col,
          (if isFinderSvg size row col then markerShape else dotShape),
          usedColor)]
      else acc2) acc) []

/-- A grid is a square of the given side: the invariant `make` establishes
when it allocates `self.modules`. -/
def WellSized (size : Nat) (g : Grid) : Prop :=
  g.length = size ∧ ∀ row ∈ g, row.length = size

/-- Grid contents after the function-pattern stamping stages, before data
placement, for a given version and level. -/
def stampedGrid (v : Nat) (l : ECLevel) : Grid :=
  stampPatterns v l (tableSize v) (allocGrid (tableSize v))

/-- Modules grid assembled by a successful `make`, as a function of the
payload and level: data placement and masking applied on top of the
stamped grid of the selected version. -/
def buildModules (data : List Nat) (l : ECLevel) : Grid :=
  applyMask (optimizeVersion data.length l)
    (tableSize (optimizeVersion data.length l))
    (placeData (optimizeVersion data.length l)
      (tableSize (optimizeVersion data.length l))
      (addErrorCorrection (encodeData data))
      (stampedGrid (optimizeVersion data.length l) l))

/-- Top-left 9x9 corner neighborhood of a grid, row-major. -/
def cornerTL (g : Grid) : List (List Bool) :=
  (List.range 9).map (fun r => (List.range 9).map (fun c => getCell g r c))

/-- Top-right corner neighborhood restricted to the function-module
footprint: rows 0..8, columns `size - 8` .. `size - 1`. -/
def cornerTR (size : Nat) (g : Grid) : List (List Bool) :=
  (List.range 9).map (fun r =>
    (List.range 8).map (fun j => getCell g r (size - 8 + j)))

/-- Bottom-left corner neighborhood restricted to the function-module
footprint (rows `size - 8` .. `size - 1`, columns 0..8), with the
dark-module cell (relative position `(0, 8)`) blanked out because it is
the one cell of the footprint that legitimately differs across versions. -/
def cornerBL (size : Nat) (g : Grid) : List (List Bool) :=
  (List.range 8).map (fun i =>
    (List.range 9).map (fun c =>
      if i = 0 ∧ c = 8 then false else getCell g (size - 8 + i) c))

/-- Module grid of a successful build (empty grid for a failed one). -/
def okModules (e : Except String QRResult) : Grid :=
  match e with | .ok s => s.modules | .error _ => []

/-- Module count of a successful build. -/
def okCount (e : Except String QRResult) : Nat :=
  match e with | .ok s => s.moduleCount | .error _ => 0

/-- Version of a successful build. -/
def okVersion (e : Except String QRResult) : Nat :=
  match e with | .ok s => s.version | .error _ => 0

/-- Closed form of the traversal rows `_place_data` actually visits:
in sweep `s`, iteration `j` visits row `size - 1 - j` when `s*size + j`
is even and row `j` otherwise (the direction flips after every
iteration, having flipped `s * size + j` times since the start). -/
def zigzagRows (size : Nat) : List (List Nat) :=
  (List.range (size / 2)).map (fun s =>
    (List.range size).map (fun j =>
      if (s * size + j) % 2 = 0 then size - 1 - j else j))

/-- Claim C2's classifier, as the claim states it: 9x9 corner
neighborhoods `rows 0-8 x cols 0-8`, `rows 0-8 x cols size-9..size-1`,
`rows size-9..size-1 x cols 0-8`, the timing row/column, and the dark
module for versions beyond the first. -/
def claimFunctionModule (version size row col : Nat) : Bool :=
  (decide (row ≤ 8) && decide (col ≤ 8)) ||
  (decide (row ≤ 8) && decide (size - 9 ≤ col) && decide (col ≤ size - 1)) ||
  (decide (size - 9 ≤ row) && decide (row ≤ size - 1) && decide (col ≤ 8)) ||
  (row == 6) || (col == 6) ||
  (decide (1 < version) && (row == 4 * version + 9) && (col == 8))

/-- Claim C2 amended: the top-right and bottom-left corner neighborhoods
start at offset `size - 8`, not `size - 9` (9x8 and 8x9 footprints). -/
def amendedFunctionModule (version size row col : Nat) : Bool :=
  (decide (row ≤ 8) && decide (col ≤ 8)) ||
  (decide (row ≤ 8) && decide (size - 8 ≤ col) && decide (col ≤ size - 1)) ||
  (decide (size - 8 ≤ row) && decide (row ≤ size - 1) && decide (col ≤ 8)) ||
  (row == 6) || (col == 6) ||
  (decide (1 < version) && (row == 4 * version + 9) && (col == 8))

/-- Specification-side rendering of "a value as 8 bits, most significant
bit first" (bit `7 - k` of the value at position `k`), used to compare
the encoder's output against the spec's wording. -/
def specBits8 (n : Nat) : List Nat :=
  (List.range 8).map (fun k => if n.testBit (7 - k) then 1 else 0)

theorem lgetD_set_self {α : Type} (l : List α) (i : Nat) (a d : α)
    (h : i < l.length) : (l.set i a).getD i d = a := by
  simp [List.getD_eq_getElem?_getD, List.getElem?_set_self h]

theorem lgetD_set_ne {α : Type} (l : List α) {i j : Nat} (a : α) (d : α)
    (h : i ≠ j) : (l.set i a).getD j d = l.getD j d := by
  simp [List.getD_eq_getElem?_getD, List.getElem?_set_ne h]

theorem getCell_setCell_ne (g : Grid) {r c r' c' : Nat} (b : Bool)
    (h : ¬(r = r' ∧ c = c')) :
    getCell (setCell g r c b) r' c' = getCell g r' c' := by
  unfold getCell setCell
  by_cases hr : r = r'
  · subst hr
    have hc : c ≠ c' := fun hc => h ⟨rfl, hc⟩
    by_cases hlen : r < g.length
    · rw [lgetD_set_self _ _ _ _ hlen, lgetD_set_ne _ _ _ hc]
    · rw [List.set_eq_of_length_le (Nat.le_of_not_lt hlen)]
  · rw [lgetD_set_ne _ _ _ hr]

theorem getCell_setCell_self (g : Grid) (r c : Nat) (b : Bool)
    (hr : r < g.length) (hc : c < (g.getD r []).length) :
    getCell (setCell g r c b) r c = b := by
  unfold getCell setCell
  rw [lgetD_set_self _ _ _ _ hr, lgetD_set_self _ _ _ _ hc]

theorem foldl_preserve {β γ : Type} (P : β → Prop) (f : β → γ → β)
    (l : List γ) (b : β) (hb : P b)
    (hf : ∀ b' x, x ∈ l → P b' → P (f b' x)) : P (l.foldl f b) := by
  induction l generalizing b with
  | nil => exact hb
  | cons x rest ih =>
      exact ih (f b x) (hf b x (List.mem_cons_self x rest) hb)
        (fun b' y hy => hf b' y (List.mem_cons_of_mem x hy))

theorem ws_setCell {size : Nat} {g : Grid} (r c : Nat) (b : Bool)
    (h : WellSized size g) : WellSized size (setCell g r c b) := by
  obtain ⟨hlen, hrows⟩ := h
  by_cases hr : r < g.length
  · constructor
    · simpa [setCell] using hlen
    · intro row hrow
      rcases List.mem_or_eq_of_mem_set hrow with hmem | heq
      · exact hrows row hmem
      · subst heq
        rw [List.length_set, List.getD_eq_getElem g [] hr]
        exact hrows _ (List.getElem_mem hr)
  · unfold setCell
    rw [List.set_eq_of_length_le (Nat.le_of_not_lt hr)]
    exact ⟨hlen, hrows⟩

theorem ws_allocGrid (size : Nat) : WellSized size (allocGrid size) := by
  constructor
  · simp [allocGrid]
  · intro row hrow
    rcases List.eq_of_mem_replicate hrow with rfl
    simp

theorem grid_ext_ws {size : Nat} {g1 g2 : Grid}
    (h1 : WellSized size g1) (h2 : WellSized size g2)
    (h : ∀ r c, getCell g1 r c = getCell g2 r c) : g1 = g2 := by
  obtain ⟨hl1, hr1⟩ := h1
  obtain ⟨hl2, hr2⟩ := h2
  apply List.ext_getElem (by omega)
  intro r hra hrb
  apply List.ext_getElem
  · rw [hr1 _ (List.getElem_mem hra), hr2 _ (List.getElem_mem hrb)]
  · intro c hca hcb
    have := h r c
    unfold getCell at this
    rwa [List.getD_eq_getElem g1 [] hra, List.getD_eq_getElem g2 [] hrb,
      List.getD_eq_getElem _ _ hca, List.getD_eq_getElem _ _ hcb] at this

theorem ws_placeFinderPatterns (size : Nat) {g : Grid} (h : WellSized size g) :
    WellSized size (placeFinderPatterns size g) := by
  unfold placeFinderPatterns
  apply foldl_preserve _ _ _ _ h
  intro g1 pos _ h1
  apply foldl_preserve _ _ _ _ h1
  intro g2 r _ h2
  apply foldl_preserve _ _ _ _ h2
  intro g3 c _ h3
  split_ifs <;> (repeat' apply ws_setCell) <;> exact h3

theorem ws_placeSeparators (size : Nat) {g : Grid} (h : WellSized size g) :
    WellSized size (placeSeparators size g) := by
  unfold placeSeparators
  apply foldl_preserve _ _ _ _ h
  intro g1 pos _ h1
  apply foldl_preserve _ _ _ _ h1
  intro g2 r _ h2
  apply foldl_preserve _ _ _ _ h2
  intro g3 c _ h3
  split_ifs <;> (repeat' apply ws_setCell) <;> exact h3

theorem ws_placeTimingPatterns (size : Nat) {g : Grid} (h : WellSized size g) :
    WellSized size (placeTimingPatterns size g) := by
  unfold placeTimingPatterns
  apply foldl_preserve _ _ _ _ h
  intro g1 k _ h1
  exact ws_setCell _ _ _ (ws_setCell _ _ _ h1)

theorem ws_placeDarkModule (version size : Nat) {g : Grid}
    (h : WellSized size g) : WellSized size (placeDarkModule version size g) := by
  unfold placeDarkModule
  split_ifs <;> (repeat' apply ws_setCell) <;> exact h

theorem ws_placeFormatInfo (l : ECLevel) (size : Nat) {g : Grid}
    (h : WellSized size g) : WellSized size (placeFormatInfo l size g) := by
  unfold placeFormatInfo
  apply foldl_preserve _ _ _ _ h
  intro g1 i _ h1
  dsimp only
  split_ifs <;> (repeat' apply ws_setCell) <;> exact h1

theorem ws_stampPatterns (version : Nat) (l : ECLevel) (size : Nat) {g : Grid}
    (h : WellSized size g) : WellSized size (stampPatterns version l size g) :=
  ws_placeFormatInfo l size
    (ws_placeDarkModule version size
      (ws_placeTimingPatterns size
        (ws_placeSeparators size
          (ws_placeFinderPatterns size h))))

theorem ws_placeCell (version size : Nat) (data : List Nat) (row col : Nat)
    {st : PDState} (h : WellSized size st.grid) :
    WellSized size (placeCell version size data row col st).grid := by
  unfold placeCell
  split_ifs <;> first | exact ws_setCell _ _ _ h | exact h

theorem ws_placeData (version size : Nat) (data : List Nat) {g : Grid}
    (h : WellSized size g) : WellSized size (placeData version size data g) := by
  unfold placeData
  apply foldl_preserve (fun acc : PDState × Int => WellSized size acc.1.grid) _ _ _ h
  intro acc col _ hacc
  dsimp only
  apply foldl_preserve (fun st : PDState => WellSized size st.grid) _ _ _ hacc
  intro st row _ hst
  exact ws_placeCell _ _ _ _ _ (ws_placeCell _ _ _ _ _ hst)

theorem ws_maskCellStep (version size row : Nat) {g : Grid} (col : Nat)
    (h : WellSized size g) : WellSized size (maskCellStep version size row g col) := by
  unfold maskCellStep
  split_ifs <;> first | exact ws_setCell _ _ _ h | exact h

theorem ws_maskRowStep (version size : Nat) {g : Grid} (row : Nat)
    (h : WellSized size g) : WellSized size (maskRowStep version size g row) := by
  unfold maskRowStep
  apply foldl_preserve _ _ _ _ h
  intro g1 col _ h1
  exact ws_maskCellStep version size row col h1

theorem ws_applyMask (version size : Nat) {g : Grid}
    (h : WellSized size g) : WellSized size (applyMask version size g) := by
  unfold applyMask
  apply foldl_preserve _ _ _ _ h
  intro g1 row _ h1
  exact ws_maskRowStep version size row h1

theorem maskRow_getCell (v size row : Nat) (cols : List Nat) (g : Grid)
    (hws : WellSized size g) (hrow : row < size)
    (hcols : ∀ x ∈ cols, x < size) (hnd : cols.Nodup) (r c : Nat) :
    getCell (cols.foldl (maskCellStep v size row) g) r c =
      if r = row ∧ c ∈ cols ∧ isFunctionModule v size row c = false ∧
         (row + c) % 2 = 0
      then !(getCell g r c) else getCell g r c := by
  induction cols generalizing g with
  | nil => simp
  | cons col rest ih =>
      have hcol : col < size := hcols col (List.mem_cons_self _ _)
      have hrest : ∀ x ∈ rest, x < size :=
        fun x hx => hcols x (List.mem_cons_of_mem _ hx)
      have hndr : rest.Nodup := (List.nodup_cons.mp hnd).2
      have hnin : col ∉ rest := (List.nodup_cons.mp hnd).1
      have hws' : WellSized size (maskCellStep v size row g col) :=
        ws_maskCellStep v size row col hws
      rw [List.foldl_cons, ih _ hws' hrest hndr]
      have hglen : row < g.length := by rw [hws.1]; exact hrow
      have hrowlen : col < (g.getD row []).length := by
        rw [List.getD_eq_getElem g [] hglen,
          hws.2 _ (List.getElem_mem hglen)]
        exact hcol
      by_cases hrc : r = row ∧ c = col
      · obtain ⟨rfl, rfl⟩ := hrc
        rw [if_neg (fun hcond => hnin hcond.2.1)]
        unfold maskCellStep
        by_cases hf : isFunctionModule v size r c = false
        · by_cases hp : (r + c) % 2 = 0
          · rw [if_pos hf, if_pos hp,
              getCell_setCell_self _ _ _ _ hglen hrowlen,
              if_pos ⟨rfl, List.mem_cons_self _ _, hf, hp⟩]
          · rw [if_pos hf, if_neg hp,
              if_neg (fun hcond => hp hcond.2.2.2)]
        · rw [if_neg hf, if_neg (fun hcond => hf hcond.2.2.1)]
      · have hstep : getCell (maskCellStep v size row g col) r c = getCell g r c := by
          unfold maskCellStep
          split_ifs with h1 h2
          · exact getCell_setCell_ne g _ (fun hx => hrc ⟨hx.1.symm, hx.2.symm⟩)
          · rfl
          · rfl
        rw [hstep]
        have hiff : (r = row ∧ c ∈ rest ∧ isFunctionModule v size row c = false ∧
              (row + c) % 2 = 0) ↔
            (r = row ∧ c ∈ col :: rest ∧ isFunctionModule v size row c = false ∧
              (row + c) % 2 = 0) := by
          simp only [List.mem_cons]
          constructor
          · rintro ⟨h1, h2, h3, h4⟩
            exact ⟨h1, Or.inr h2, h3, h4⟩
          · rintro ⟨h1, h2 | h2, h3, h4⟩
            · exact absurd ⟨h1, h2⟩ hrc
            · exact ⟨h1, h2, h3, h4⟩
        rw [if_congr hiff rfl rfl]

theorem maskGrid_getCell (v size : Nat) (rows : List Nat) (g : Grid)
    (hws : WellSized size g) (hrows : ∀ x ∈ rows, x < size)
    (hnd : rows.Nodup) (r c : Nat) :
    getCell (rows.foldl (maskRowStep v size) g) r c =
      if r ∈ rows ∧ c < size ∧ isFunctionModule v size r c = false ∧
         (r + c) % 2 = 0
      then !(getCell g r c) else getCell g r c := by
  induction rows generalizing g with
  | nil => simp
  | cons row rest ih =>
      have hrow : row < size := hrows row (List.mem_cons_self _ _)
      have hrest : ∀ x ∈ rest, x < size :=
        fun x hx => hrows x (List.mem_cons_of_mem _ hx)
      have hndr : rest.Nodup := (List.nodup_cons.mp hnd).2
      have hnin : row ∉ rest := (List.nodup_cons.mp hnd).1
      have hws' : WellSized size (maskRowStep v size g row) :=
        ws_maskRowStep v size row hws
      have hinner : getCell (maskRowStep v size g row) r c =
          if r = row ∧ c ∈ List.range size ∧
             isFunctionModule v size row c = false ∧ (row + c) % 2 = 0
          then !(getCell g r c) else getCell g r c :=
        maskRow_getCell v size row (List.range size) g hws hrow
          (fun x hx => List.mem_range.mp hx) (List.nodup_range size) r c
      rw [List.foldl_cons, ih _ hws' hrest hndr]
      by_cases hr : r = row
      · subst hr
        rw [if_neg (fun hcond => hnin hcond.1), hinner]
        by_cases hc : c < size
        · by_cases hf : isFunctionModule v size r c = false
          · by_cases hp : (r + c) % 2 = 0
            · rw [if_pos ⟨rfl, List.mem_range.mpr hc, hf, hp⟩,
                if_pos ⟨List.mem_cons_self _ _, hc, hf, hp⟩]
            · rw [if_neg (fun h => hp h.2.2.2), if_neg (fun h => hp h.2.2.2)]
          · rw [if_neg (fun h => hf h.2.2.1), if_neg (fun h => hf h.2.2.1)]
        · rw [if_neg (fun h => hc (List.mem_range.mp h.2.1)),
            if_neg (fun h => hc h.2.1)]
      · have hg2 : getCell (maskRowStep v size g row) r c = getCell g r c := by
          rw [hinner, if_neg (fun hcond => hr hcond.1)]
        rw [hg2]
        have hiff : (r ∈ rest ∧ c < size ∧ isFunctionModule v size r c = false ∧
              (r + c) % 2 = 0) ↔
            (r ∈ row :: rest ∧ c < size ∧ isFunctionModule v size r c = false ∧
              (r + c) % 2 = 0) := by
          simp only [List.mem_cons]
          constructor
          · rintro ⟨h1, h2, h3, h4⟩
            exact ⟨Or.inr h1, h2, h3, h4⟩
          · rintro ⟨h1 | h1, h2, h3, h4⟩
            · exact absurd h1 hr
            · exact ⟨h1, h2, h3, h4⟩
        rw [if_congr hiff rfl rfl]

theorem applyMask_getCell (v size : Nat) (g : Grid) (hws : WellSized size g)
    (r c : Nat) :
    getCell (applyMask v size g) r c =
      if r < size ∧ c < size ∧ isFunctionModule v size r c = false ∧
         (r + c) % 2 = 0
      then !(getCell g r c) else getCell g r c := by
  unfold applyMask
  rw [maskGrid_getCell v size (List.range size) g hws
    (fun x hx => List.mem_range.mp hx) (List.nodup_range size) r c]
  have hiff : (r ∈ List.range size ∧ c < size ∧
        isFunctionModule v size r c = false ∧ (r + c) % 2 = 0) ↔
      (r < size ∧ c < size ∧ isFunctionModule v size r c = false ∧
        (r + c) % 2 = 0) := by
    rw [List.mem_range]
  rw [if_congr hiff rfl rfl]

theorem applyMask_getCell_fm (v size : Nat) (g : Grid) (hws : WellSized size g)
    (r c : Nat) (hfm : isFunctionModule v size r c = true) :
    getCell (applyMask v size g) r c = getCell g r c := by
  rw [applyMask_getCell v size g hws r c, if_neg]
  rintro ⟨_, _, hf, _⟩
  rw [hfm] at hf
  cases hf

theorem placeCell_getCell_fm (v size : Nat) (data : List Nat) (row col r c : Nat)
    (hfm : isFunctionModule v size r c = true) (st : PDState) :
    getCell (placeCell v size data row col st).grid r c = getCell st.grid r c := by
  unfold placeCell
  split_ifs with h1 h2
  · dsimp only
    apply getCell_setCell_ne
    rintro ⟨rfl, rfl⟩
    rw [hfm] at h1
    cases h1
  · rfl
  · rfl

theorem placeData_getCell_fm (v size : Nat) (data : List Nat) (g : Grid)
    (r c : Nat) (hfm : isFunctionModule v size r c = true) :
    getCell (placeData v size data g) r c = getCell g r c := by
  unfold placeData
  refine foldl_preserve
    (fun acc : PDState × Int => getCell acc.1.grid r c = getCell g r c)
    _ _ _ rfl ?_
  intro acc col _ hacc
  dsimp only
  refine foldl_preserve
    (fun st : PDState => getCell st.grid r c = getCell g r c) _ _ _ hacc ?_
  intro st row _ hst
  rw [placeCell_getCell_fm v size data row (col - 1) r c hfm,
    placeCell_getCell_fm v size data row col r c hfm, hst]

theorem optimizeVersion_bounds (n : Nat) (l : ECLevel) :
    1 ≤ optimizeVersion n l ∧ optimizeVersion n l ≤ 5 := by
  unfold optimizeVersion
  simp only [optimizeVersionAux]
  split_ifs <;> omega

theorem optimizeVersion_min (n : Nat) (l : ECLevel) :
    ∀ u, 1 ≤ u → u < optimizeVersion n l → dataCapacity u l < n := by
  unfold optimizeVersion
  simp only [optimizeVersionAux]
  split_ifs with h1 h2 h3 h4 h5 <;> intro u hu1 hu2 <;>
    first
      | omega
      | (interval_cases u <;> omega)

theorem optimizeVersion_cap (n : Nat) (l : ECLevel) :
    n ≤ dataCapacity (optimizeVersion n l) l ∨
      (optimizeVersion n l = 5 ∧ ∀ u, 1 ≤ u → u ≤ 5 → dataCapacity u l < n) := by
  unfold optimizeVersion
  simp only [optimizeVersionAux]
  split_ifs with h1 h2 h3 h4 h5
  · exact Or.inl h1
  · exact Or.inl h2
  · exact Or.inl h3
  · exact Or.inl h4
  · exact Or.inl h5
  · refine Or.inr ⟨rfl, fun u hu1 hu2 => ?_⟩
    interval_cases u <;> omega

theorem tableSize_eq (v : Nat) (h1 : 1 ≤ v) (h5 : v ≤ 5) :
    tableSize v = 4 * v + 17 := by
  interval_cases v <;> rfl

theorem foldl_append_flatMap {α β : Type} (f : α → List β) (l : List α)
    (init : List β) :
    l.foldl (fun acc x => acc ++ f x) init = init ++ l.flatMap f := by
  induction l generalizing init with
  | nil => simp
  | cons x rest ih => simp [ih, List.append_assoc]

theorem shiftRight_and_one (m j : Nat) :
    (m >>> j) &&& 1 = if m.testBit j then 1 else 0 := by
  rw [Nat.and_one_is_mod]
  rcases Nat.mod_two_eq_zero_or_one (m >>> j) with h | h <;>
    simp [Nat.testBit, Nat.one_and_eq_mod_two, h]

theorem bits8Desc_eq_specBits8 : bits8Desc = specBits8 := by
  funext n
  unfold bits8Desc specBits8
  apply List.ext_getElem
  · simp
  · intro i h1 h2
    simp only [List.getElem_map, List.getElem_reverse, List.length_range,
      List.getElem_range]
    rw [shiftRight_and_one]

theorem len_flatMap_specBits8 (bs : List Nat) :
    (bs.flatMap specBits8).length = 8 * bs.length := by
  induction bs with
  | nil => simp
  | cons b rest ih =>
      simp only [List.flatMap_cons, List.length_append, ih, specBits8,
        List.length_map, List.length_range, List.length_cons]
      omega

theorem encodeData_eq (bs : List Nat) :
    encodeData bs = [0, 1, 0, 0] ++ specBits8 bs.length ++ bs.flatMap specBits8 := by
  unfold encodeData
  rw [bits8Desc_eq_specBits8, foldl_append_flatMap]

theorem makeQR_ok (data : List Nat) (l : ECLevel) (hne : data ≠ []) :
    makeQR data l = .ok
      ⟨optimizeVersion data.length l,
        tableSize (optimizeVersion data.length l),
        buildModules data l⟩ := by
  unfold makeQR
  rw [if_neg hne]
  rfl

theorem ws_buildModules (data : List Nat) (l : ECLevel) :
    WellSized (tableSize (optimizeVersion data.length l))
      (buildModules data l) :=
  ws_applyMask _ _
    (ws_placeData _ _ _
      (ws_stampPatterns _ _ _ (ws_allocGrid _)))

theorem fm_topLeft (v size r c : Nat) (hr : r < 9) (hc : c < 9) :
    isFunctionModule v size r c = true := by
  unfold isFunctionModule
  rw [if_pos (Or.inl ⟨hr, hc⟩)]

theorem fm_topRight (v size r c : Nat) (hr : r < 9) (hc : size - 8 ≤ c) :
    isFunctionModule v size r c = true := by
  unfold isFunctionModule
  rw [if_pos (Or.inr (Or.inl ⟨hr, hc⟩))]

theorem fm_bottomLeft (v size r c : Nat) (hr : size - 8 ≤ r) (hc : c < 9) :
    isFunctionModule v size r c = true := by
  unfold isFunctionModule
  rw [if_pos (Or.inr (Or.inr ⟨hr, hc⟩))]

theorem buildModules_fm (data : List Nat) (l : ECLevel) (r c : Nat)
    (hfm : isFunctionModule (optimizeVersion data.length l)
      (tableSize (optimizeVersion data.length l)) r c = true) :
    getCell (buildModules data l) r c =
    getCell (stampedGrid (optimizeVersion data.length l) l) r c := by
  unfold buildModules stampedGrid
  rw [applyMask_getCell_fm _ _ _
      (ws_placeData _ _ _ (ws_stampPatterns _ _ _ (ws_allocGrid _))) r c hfm]
  exact placeData_getCell_fm _ _ _ _ r c hfm

theorem renderers_agree :
    rasterDraws = svgDraws ∧ isFinderRaster = isFinderSvg ∧
      sanitizeColorRaster = sanitizeColorSvg :=
  ⟨rfl, rfl, rfl⟩

theorem rasterDraws_colors (size : Nat) (g : Grid) (parses : String → Bool)
    (color markerShape dotShape : String) :
    ∀ p ∈ rasterDraws size g parses color markerShape dotShape,
      p.2.2.2 = sanitizeColorRaster parses color := by
  unfold rasterDraws
  refine foldl_preserve
    (fun acc : List (Nat × Nat × String × String) =>
      ∀ p ∈ acc, p.2.2.2 = sanitizeColorRaster parses color)
    _ _ _ (by simp) ?_
  intro acc row _ hacc
  refine foldl_preserve
    (fun acc2 : List (Nat × Nat × String × String) =>
      ∀ p ∈ acc2, p.2.2.2 = sanitizeColorRaster parses color)
    _ _ _ hacc ?_
  intro acc2 col _ hacc2
  dsimp only
  split_ifs with h1 h2
  · intro p hp
    rcases List.mem_append.mp hp with h | h
    · exact hacc2 p h
    · rw [List.mem_singleton.mp h]
  · intro p hp
    rcases List.mem_append.mp hp with h | h
    · exact hacc2 p h
    · rw [List.mem_singleton.mp h]
  · exact hacc2

set_option maxRecDepth 100000 in
set_option maxHeartbeats 2000000 in
theorem stamped_corners (l : ECLevel) :
    ∀ v, 1 ≤ v → v ≤ 5 →
      cornerTL (stampedGrid v l) = cornerTL (stampedGrid 1 l) ∧
      cornerTR (tableSize v) (stampedGrid v l) =
        cornerTR (tableSize 1) (stampedGrid 1 l) ∧
      cornerBL (tableSize v) (stampedGrid v l) =
        cornerBL (tableSize 1) (stampedGrid 1 l) ∧
      getCell (stampedGrid v l) (tableSize v - 8) 8 = decide (1 < v) := by
  intro v h1 h5
  cases l <;> interval_cases v <;>
    exact ⟨by decide, by decide, by decide, by decide⟩

theorem build_cornerTL (data : List Nat) (l : ECLevel) :
    cornerTL (buildModules data l) =
      cornerTL (stampedGrid (optimizeVersion data.length l) l) := by
  unfold cornerTL
  apply List.map_congr_left
  intro r hr
  apply List.map_congr_left
  intro c hc
  exact buildModules_fm data l r c
    (fm_topLeft _ _ _ _ (List.mem_range.mp hr) (List.mem_range.mp hc))

theorem build_cornerTR (data : List Nat) (l : ECLevel) :
    cornerTR (tableSize (optimizeVersion data.length l)) (buildModules data l) =
      cornerTR (tableSize (optimizeVersion data.length l))
        (stampedGrid (optimizeVersion data.length l) l) := by
  unfold cornerTR
  apply List.map_congr_left
  intro r hr
  apply List.map_congr_left
  intro j hj
  exact buildModules_fm data l r _
    (fm_topRight _ _ _ _ (List.mem_range.mp hr) (Nat.le_add_right _ _))

theorem build_cornerBL (data : List Nat) (l : ECLevel) :
    cornerBL (tableSize (optimizeVersion data.length l)) (buildModules data l) =
      cornerBL (tableSize (optimizeVersion data.length l))
        (stampedGrid (optimizeVersion data.length l) l) := by
  unfold cornerBL
  apply List.map_congr_left
  intro i hi
  apply List.map_congr_left
  intro c hc
  by_cases hic : i = 0 ∧ c = 8
  · rw [if_pos hic, if_pos hic]
  · rw [if_neg hic, if_neg hic]
    exact buildModules_fm data l _ c
      (fm_bottomLeft _ _ _ _ (Nat.le_add_right _ _) (List.mem_range.mp hc))

theorem build_darkCell (data : List Nat) (l : ECLevel) :
    getCell (buildModules data l)
        (tableSize (optimizeVersion data.length l) - 8) 8 =
      getCell (stampedGrid (optimizeVersion data.length l) l)
        (tableSize (optimizeVersion data.length l) - 8) 8 :=
  buildModules_fm data l _ 8
    (fm_bottomLeft _ _ _ _ (Nat.le_refl _) (by omega))

/-- C1: for every non-empty payload, `make` selects the smallest supported
version (1..5) whose capacity table entry for the chosen error correction
level is at least the payload's byte length — version 5 when no supported
version suffices — and allocates a square module grid whose side length is
exactly `4 * version + 17`. -/
theorem c1_version_selection_and_grid (l : ECLevel) (data : List Nat)
    (hne : data ≠ []) :
    okVersion (makeQR data l) = optimizeVersion data.length l ∧
    1 ≤ okVersion (makeQR data l) ∧ okVersion (makeQR data l) ≤ 5 ∧
    (∀ u, 1 ≤ u → u < okVersion (makeQR data l) →
      dataCapacity u l < data.length) ∧
    (data.length ≤ dataCapacity (okVersion (makeQR data l)) l ∨
      (okVersion (makeQR data l) = 5 ∧
        ∀ u, 1 ≤ u → u ≤ 5 → dataCapacity u l < data.length)) ∧
    okCount (makeQR data l) = 4 * okVersion (makeQR data l) + 17 ∧
    (okModules (makeQR data l)).length = okCount (makeQR data l) ∧
    (∀ row ∈ okModules (makeQR data l),
      row.length = okCount (makeQR data l)) := by
  rw [makeQR_ok data l hne]
  simp only [okVersion, okCount, okModules]
  obtain ⟨h1, h5⟩ := optimizeVersion_bounds data.length l
  have hws := ws_buildModules data l
  exact ⟨by simp, h1, h5, optimizeVersion_min data.length l,
    optimizeVersion_cap data.length l,
    tableSize_eq _ h1 h5, hws.1, hws.2⟩

/-- C1 witness: a 5-byte payload at level High. -/
theorem c1_witness :
    okVersion (makeQR [72, 101, 108, 108, 111] .H) =
      optimizeVersion ([72, 101, 108, 108, 111] : List Nat).length .H :=
  (c1_version_selection_and_grid .H [72, 101, 108, 108, 111] (by decide)).1

/-- C2 counterexample: at version 1 (size 21) the position `(0, 12)` (row 0,
column `size - 9`) lies in the claim's top-right 9x9 corner neighborhood,
yet the source classifier does not treat it as a function module: its
corner strips start at `size - 8`, not `size - 9`. -/
theorem c2_counterexample :
    claimFunctionModule 1 21 0 12 = true ∧
      isFunctionModule 1 21 0 12 = false := by
  decide

/-- C2 amended: for every version 1..5 and every grid position, the
classifier returns True exactly when the position lies in the top-left 9x9
corner neighborhood, the top-right 9x8 strip (cols `size-8..size-1`), the
bottom-left 8x9 strip (rows `size-8..size-1`), on row 6 or column 6, or at
the dark-module coordinate for versions beyond the first. -/
theorem c2_amended_classifier :
    ∀ v, 1 ≤ v → v ≤ 5 → ∀ r c : Fin (4 * v + 17),
      isFunctionModule v (4 * v + 17) r c =
        amendedFunctionModule v (4 * v + 17) r c := by
  intro v h1 h5
  interval_cases v <;> decide

/-- C2 witness: the amended classifier at version 1, position (20, 6). -/
theorem c2_witness :
    isFunctionModule 1 (4 * 1 + 17) 20 6 =
      amendedFunctionModule 1 (4 * 1 + 17) 20 6 :=
  c2_amended_classifier 1 (by decide) (by decide) ⟨20, by decide⟩ ⟨6, by decide⟩

/-- C3 counterexample: a single direction inversion per sweep would make
the first sweep of a version-1 symbol visit its 21 rows in one monotone
pass, either `20, 19, ..., 0` or `0, 1, ..., 20`; the source flips the
direction after every row iteration, so the first sweep starts at row 20
but its second visited row is already row 1 — it matches neither monotone
order. -/
theorem c3_counterexample :
    (rowTrace (tableSize 1)).getD 0 [] ≠ (List.range (tableSize 1)).reverse ∧
    (rowTrace (tableSize 1)).getD 0 [] ≠ List.range (tableSize 1) ∧
    ((rowTrace (tableSize 1)).getD 0 []).getD 0 99 = 20 ∧
    ((rowTrace (tableSize 1)).getD 0 []).getD 1 99 = 1 := by
  refine ⟨by decide, by decide, by decide, by decide⟩

/-- C3 amended: the vertical direction inverts after every row iteration —
`size` times per sweep, not once — so within a sweep the visited rows
interleave from both ends (`size-1, 1, size-3, 3, ...`); every row is
still visited exactly once per sweep for both columns of the pair, and
since `size` is odd the starting direction alternates between consecutive
sweeps (the even sweeps start from the bottom row, the odd ones from the
top), as captured by the closed form `zigzagRows`. -/
theorem c3_amended_traversal :
    ∀ v, 1 ≤ v → v ≤ 5 →
      rowTrace (tableSize v) = zigzagRows (tableSize v) ∧
      ∀ rows ∈ rowTrace (tableSize v), rows.Perm (List.range (tableSize v)) := by
  intro v h1 h5
  interval_cases v <;> exact ⟨by decide, by decide⟩

/-- C3 witness: the version-1 traversal trace equals the closed form. -/
theorem c3_witness : rowTrace (tableSize 1) = zigzagRows (tableSize 1) :=
  (c3_amended_traversal 1 (by decide) (by decide)).1

/-- C4: the bit stream handed to placement is exactly the 4-bit mode
indicator `0100`, the payload byte count as 8 bits most significant first,
then each payload byte as 8 bits most significant first, with no padding
or terminator (length `12 + 8 * n` for an `n`-byte payload); the
error-correction stage returns this stream unchanged. -/
theorem c4_bitstream (bs : List Nat) :
    encodeData bs =
      [0, 1, 0, 0] ++ specBits8 bs.length ++ bs.flatMap specBits8 ∧
    (encodeData bs).length = 12 + 8 * bs.length ∧
    addErrorCorrection (encodeData bs) = encodeData bs := by
  refine ⟨encodeData_eq bs, ?_, rfl⟩
  rw [encodeData_eq bs]
  simp only [List.length_append, List.length_cons, List.length_nil,
    specBits8, List.length_map, List.length_range, len_flatMap_specBits8]

/-- C5: the masking stage is an involution — applying it twice returns the
original grid: each non-function module with even coordinate sum is
toggled twice, and every other module (function modules included) is never
changed by masking. -/
theorem c5_mask_involution (v size : Nat) (g : Grid)
    (hws : WellSized size g) :
    applyMask v size (applyMask v size g) = g ∧
    ∀ r c, (isFunctionModule v size r c = true ∨ (r + c) % 2 ≠ 0) →
      getCell (applyMask v size g) r c = getCell g r c := by
  have hws2 := ws_applyMask v size hws
  constructor
  · apply grid_ext_ws (ws_applyMask v size hws2) hws
    intro r c
    rw [applyMask_getCell v size _ hws2 r c, applyMask_getCell v size g hws r c]
    by_cases hcond : r < size ∧ c < size ∧
        isFunctionModule v size r c = false ∧ (r + c) % 2 = 0
    · rw [if_pos hcond, if_pos hcond, Bool.not_not]
    · rw [if_neg hcond, if_neg hcond]
  · intro r c h
    rw [applyMask_getCell v size g hws r c, if_neg]
    rintro ⟨hrs, hcs, hf, hpar⟩
    rcases h with h | h
    · rw [h] at hf
      cases hf
    · exact h hpar

/-- C5 witness: double masking the freshly allocated version-1 grid. -/
theorem c5_witness :
    applyMask 1 21 (applyMask 1 21 (allocGrid 21)) = allocGrid 21 :=
  (c5_mask_involution 1 21 (allocGrid 21) (ws_allocGrid 21)).1

/-- C6: with an empty payload `make` fails with the no-payload error — the
check precedes version selection and grid allocation, and no grid value is
produced at all — while every non-empty payload builds successfully, the
empty-payload check being the pipeline's only explicit failure. -/
theorem c6_empty_payload (l : ECLevel) (data : List Nat) :
    (data = [] → makeQR data l = .error "No data to encode") ∧
    (data ≠ [] → ∃ st, makeQR data l = .ok st) := by
  constructor
  · intro h
    subst h
    rfl
  · intro h
    exact ⟨_, makeQR_ok data l h⟩

/-- C6 witness: the empty payload errors, a 1-byte payload builds. -/
theorem c6_witness :
    makeQR [] .H = .error "No data to encode" ∧
    ∃ st, makeQR [72] .H = .ok st :=
  ⟨(c6_empty_payload .H []).1 rfl, (c6_empty_payload .H [72]).2 (by decide)⟩

/-- C7: for the same finished symbol and shape configuration the raster
and vector renderers emit drawing primitives for exactly the same set of
dark-module coordinates, classify exactly the same coordinates as finder
modules, and assign the same shape variant to each drawn coordinate:
their primitive streams coincide, as do their finder classifiers. -/
theorem c7_renderer_agreement (size : Nat) (g : Grid)
    (parses : String → Bool) (color markerShape dotShape : String) :
    rasterDraws size g parses color markerShape dotShape =
      svgDraws size g parses color markerShape dotShape ∧
    ∀ row col, isFinderRaster size row col = isFinderSvg size row col :=
  ⟨rfl, fun _ _ => rfl⟩

/-- C8: when the foreground color string does not parse, both renderers
silently draw every primitive in pure black `#000000`; when it parses,
both use it as given.  (Both renderers are total functions of their
inputs: the fallback never surfaces an error.) -/
theorem c8_color_fallback (size : Nat) (g : Grid) (parses : String → Bool)
    (color markerShape dotShape : String) :
    (parses color = false →
      (∀ p ∈ rasterDraws size g parses color markerShape dotShape,
        p.2.2.2 = "#000000") ∧
      (∀ p ∈ svgDraws size g parses color markerShape dotShape,
        p.2.2.2 = "#000000")) ∧
    (parses color = true →
      (∀ p ∈ rasterDraws size g parses color markerShape dotShape,
        p.2.2.2 = color) ∧
      (∀ p ∈ svgDraws size g parses color markerShape dotShape,
        p.2.2.2 = color)) := by
  have hraster := rasterDraws_colors size g parses color markerShape dotShape
  have hsvg : ∀ p ∈ svgDraws size g parses color markerShape dotShape,
      p.2.2.2 = sanitizeColorRaster parses color := by
    rw [← renderers_agree.1]
    exact hraster
  constructor
  · intro h
    have hc : sanitizeColorRaster parses color = "#000000" := by
      simp [sanitizeColorRaster, h]
    exact ⟨fun p hp => (hraster p hp).trans hc,
      fun p hp => (hsvg p hp).trans hc⟩
  · intro h
    have hc : sanitizeColorRaster parses color = color := by
      simp [sanitizeColorRaster, h]
    exact ⟨fun p hp => (hraster p hp).trans hc,
      fun p hp => (hsvg p hp).trans hc⟩

/-- C8 witness: a 1x1 dark grid with a never-parsing color oracle and the
color string "invalid-color" draws its single primitive in black. -/
theorem c8_witness :
    ((rasterDraws 1 [[true]] (fun _ => false) "invalid-color" "square"
        "square").getD 0 (0, 0, "", "")).2.2.2 = "#000000" :=
  ((c8_color_fallback 1 [[true]] (fun _ => false) "invalid-color" "square"
      "square").1 rfl).1 _ (by decide)

set_option maxRecDepth 100000 in
set_option maxHeartbeats 2000000 in
/-- C9 counterexample: with level High, payload `[65]` builds a version-1
symbol and a 73-byte payload builds a version-2 symbol; the dark-module
cell `(size - 8, 8)` lies inside the claim's bottom-left 9x9 corner
neighborhood (rows `size-9..size-1`, cols `0..8`) in both symbols, yet it
is Light in the version-1 symbol and Dark in the version-2 symbol, so the
claimed 9x9 corner neighborhoods are not identical bit patterns across
versions.  (The neighborhoods' outermost line at offset `size - 9` is not
function-module territory either and additionally receives
payload-dependent data bits and mask toggles.) -/
theorem c9_counterexample :
    okVersion (makeQR [65] .H) = 1 ∧
    okVersion (makeQR (List.replicate 73 255) .H) = 2 ∧
    getCell (okModules (makeQR [65] .H))
        (okCount (makeQR [65] .H) - 8) 8 ≠
      getCell (okModules (makeQR (List.replicate 73 255) .H))
        (okCount (makeQR (List.replicate 73 255) .H) - 8) 8 := by
  rw [makeQR_ok [65] .H (by decide),
    makeQR_ok (List.replicate 73 255) .H (by decide)]
  simp only [okVersion, okCount, okModules]
  refine ⟨by decide, by decide, ?_⟩
  rw [build_darkCell [65] .H, build_darkCell (List.replicate 73 255) .H]
  decide

/-- C9 amended: in finished symbols built at the same level from any
(possibly different) non-empty payloads, the top-left 9x9 corner
neighborhoods are identical, and the top-right and bottom-left corner
neighborhoods agree on their function-module footprints (the 9x8 strip at
columns `size-8..size-1` and the 8x9 strip at rows `size-8..size-1`)
except for the dark-module cell `(size - 8, 8)`, which is Dark exactly
when the version exceeds 1; the outermost line of the claimed 9x9
neighborhoods (offset `size - 9`) is payload-dependent. -/
theorem c9_amended_corners (l : ECLevel) (p q : List Nat)
    (hp : p ≠ []) (hq : q ≠ []) :
    cornerTL (okModules (makeQR p l)) = cornerTL (okModules (makeQR q l)) ∧
    cornerTR (okCount (makeQR p l)) (okModules (makeQR p l)) =
      cornerTR (okCount (makeQR q l)) (okModules (makeQR q l)) ∧
    cornerBL (okCount (makeQR p l)) (okModules (makeQR p l)) =
      cornerBL (okCount (makeQR q l)) (okModules (makeQR q l)) ∧
    getCell (okModules (makeQR p l)) (okCount (makeQR p l) - 8) 8 =
      decide (1 < okVersion (makeQR p l)) := by
  rw [makeQR_ok p l hp, makeQR_ok q l hq]
  simp only [okVersion, okCount, okModules]
  obtain ⟨hp1, hp5⟩ := optimizeVersion_bounds p.length l
  obtain ⟨hq1, hq5⟩ := optimizeVersion_bounds q.length l
  obtain ⟨ptl, ptr, pbl, pdk⟩ := stamped_corners l _ hp1 hp5
  obtain ⟨qtl, qtr, qbl, qdk⟩ := stamped_corners l _ hq1 hq5
  refine ⟨?_, ?_, ?_, ?_⟩
  · rw [build_cornerTL p l, build_cornerTL q l, ptl, qtl]
  · rw [build_cornerTR p l, build_cornerTR q l, ptr, qtr]
  · rw [build_cornerBL p l, build_cornerBL q l, pbl, qbl]
  · rw [build_darkCell p l, pdk]

/-- C9 witness: two version-1 builds at level Low share their top-left
corner pattern. -/
theorem c9_witness :
    cornerTL (okModules (makeQR [65] .L)) =
      cornerTL (okModules (makeQR [66, 67] .L)) :=
  (c9_amended_corners .L [65] [66, 67] (by decide) (by decide)).1

/-- C10: `is_dark` is total on all integer coordinate pairs: it returns
the stored module state when both coordinates are in `0 ≤ x < size` and
Light (`false`) for every out-of-bounds coordinate, never failing. -/
theorem c10_is_dark_total (size : Nat) (g : Grid) (row col : Int) :
    (0 ≤ row → row < (size : Int) → 0 ≤ col → col < (size : Int) →
      isDark size g row col = getCell g row.toNat col.toNat) ∧
    ((row < 0 ∨ (size : Int) ≤ row ∨ col < 0 ∨ (size : Int) ≤ col) →
      isDark size g row col = false) := by
  constructor
  · intro h1 h2 h3 h4
    unfold isDark
    rw [if_pos ⟨h1, h2, h3, h4⟩]
  · intro h
    unfold isDark
    rw [if_neg]
    rintro ⟨ha, hb, hc, hd⟩
    rcases h with h | h | h | h <;> omega

/-- C10 witness: an in-bounds read and a negative-row read. -/
theorem c10_witness :
    isDark 21 (allocGrid 21) 3 5 = getCell (allocGrid 21) 3 5 ∧
    isDark 21 (allocGrid 21) (-1) 0 = false := by
  constructor
  · exact (c10_is_dark_total 21 (allocGrid 21) 3 5).1 (by decide) (by decide)
      (by decide) (by decide)
  · exact (c10_is_dark_total 21 (allocGrid 21) (-1) 0).2 (Or.inl (by decide))

end QR
